import Mathlib

/-!
Verification of the simulation core of the Enhanced Pong game (PongAi.py).

The embedding translates the source into Lean over exact real arithmetic:
Python floats become real numbers, Python integer floor division `//`
becomes `pydiv`, and every random draw becomes an explicit parameter
with its support recorded as a hypothesis where a claim needs it.
Cosmetic state (particle lists, trails, glow timers, sounds) is omitted:
it never feeds back into the physics or the state machine.
-/

namespace Pong

noncomputable section

open Real

/-- Playfield width constant, WIDTH = 1000 in the source. -/
def WIDTH : ℤ := 1000

/-- Playfield height constant, HEIGHT = 600 in the source. -/
def HEIGHT : ℤ := 600

/-- Winning score threshold, max_score = 10 in the source. -/
def max_score : ℕ := 10

/-- Python floor division on integers, the `//` operator. -/
def pydiv (a b : ℤ) : ℤ := Int.fdiv a b

/-- Paddle entity: fixed x, vertical position y, fixed size and speed.
The source stores these on a `Paddle` object; y becomes a float once
`ai_move` runs, so it is modelled as a real. -/
structure Paddle where
  x : ℤ
  y : ℝ
  width : ℤ := 15
  height : ℤ := 80
  speed : ℤ := 6

/-- `Paddle.move(direction)`: shift y by `speed * direction`, then clamp y
into `[20, HEIGHT - 20 - height]` (source lines 175-177). -/
def Paddle.move (p : Paddle) (direction : ℝ) : Paddle :=
  { p with y := max 20 (min ((HEIGHT - 20 - p.height : ℤ) : ℝ)
                  (p.y + (p.speed : ℝ) * direction)) }

/-- `Paddle.ai_move(ball_y, difficulty)` (source lines 179-201).
The random aim offset `random.uniform(-height*difficulty, height*difficulty)`
is passed in as the parameter `r`; the claims quantify over arbitrary `r`.
The paddle eases 10% of the distance to the noisy target per frame, capped
at `speed`, then clamps y into `[20, HEIGHT - 20 - height]`. -/
def Paddle.ai_move (p : Paddle) (ball_y r : ℝ) : Paddle :=
  { p with y := max 20 (min ((HEIGHT - 20 - p.height : ℤ) : ℝ)
      (p.y +
        (if (p.speed : ℝ) < |(ball_y + r - (p.y + ((pydiv p.height 2 : ℤ) : ℝ))) * 0.1|
         then (if 0 < (ball_y + r - (p.y + ((pydiv p.height 2 : ℤ) : ℝ))) * 0.1
               then (p.speed : ℝ) else -(p.speed : ℝ))
         else (ball_y + r - (p.y + ((pydiv p.height 2 : ℤ) : ℝ))) * 0.1))) }

/-- A call made to a paddle during a match: either a manual `move` or an
automated `ai_move` with its sampled random offset. -/
inductive PaddleCmd where
  | move (direction : ℝ)
  | aiMove (ball_y r : ℝ)

/-- Apply a finite sequence of paddle calls in order. -/
def applyCmds : List PaddleCmd → Paddle → Paddle
  | [], p => p
  | PaddleCmd.move d :: cs, p => applyCmds cs (p.move d)
  | PaddleCmd.aiMove by_ r :: cs, p => applyCmds cs (p.ai_move by_ r)

lemma clamp_mem (L U y : ℝ) (h : L ≤ U) :
    L ≤ max L (min U y) ∧ max L (min U y) ≤ U :=
  ⟨le_max_left _ _, max_le h (min_le_left _ _)⟩

lemma move_height (p : Paddle) (d : ℝ) : (p.move d).height = p.height := rfl

lemma ai_move_height (p : Paddle) (b r : ℝ) : (p.ai_move b r).height = p.height := rfl

lemma applyCmds_height (cmds : List PaddleCmd) (p : Paddle) :
    (applyCmds cmds p).height = p.height := by
  induction cmds generalizing p with
  | nil => rfl
  | cons c cs ih => cases c with
    | move d => simpa [applyCmds] using ih (p.move d)
    | aiMove b r => simpa [applyCmds] using ih (p.ai_move b r)

/-- C3: a paddle whose y starts within `[20, HEIGHT - 20 - height]` stays
within that band after any finite sequence of `move` and `ai_move` calls
with arbitrary arguments. (Quantifying over all command lists covers the
state after every intermediate call, since any prefix is itself a list.) -/
theorem paddle_y_bounded (p : Paddle) (cmds : List PaddleCmd)
    (h1 : 20 ≤ p.y) (h2 : p.y ≤ ((HEIGHT - 20 - p.height : ℤ) : ℝ)) :
    20 ≤ (applyCmds cmds p).y ∧
      (applyCmds cmds p).y ≤ ((HEIGHT - 20 - (applyCmds cmds p).height : ℤ) : ℝ) := by
  induction cmds generalizing p with
  | nil => exact ⟨h1, h2⟩
  | cons c cs ih =>
    have hLU : (20 : ℝ) ≤ ((HEIGHT - 20 - p.height : ℤ) : ℝ) := le_trans h1 h2
    cases c with
    | move d =>
      have hstep := clamp_mem 20 ((HEIGHT - 20 - p.height : ℤ) : ℝ)
        (p.y + (p.speed : ℝ) * d) hLU
      exact ih (p.move d) hstep.1 hstep.2
    | aiMove b r =>
      have hstep := clamp_mem 20 ((HEIGHT - 20 - p.height : ℤ) : ℝ)
        (p.y +
          (if (p.speed : ℝ) < |(b + r - (p.y + ((pydiv p.height 2 : ℤ) : ℝ))) * 0.1|
           then (if 0 < (b + r - (p.y + ((pydiv p.height 2 : ℤ) : ℝ))) * 0.1
                 then (p.speed : ℝ) else -(p.speed : ℝ))
           else (b + r - (p.y + ((pydiv p.height 2 : ℤ) : ℝ))) * 0.1)) hLU
      exact ih (p.ai_move b r) hstep.1 hstep.2

/-- Witness for C3 at a concrete paddle and command sequence. -/
theorem paddle_y_bounded_witness :
    20 ≤ (applyCmds [PaddleCmd.move 1, PaddleCmd.aiMove 300 0]
            { x := 30, y := 260 }).y ∧
      (applyCmds [PaddleCmd.move 1, PaddleCmd.aiMove 300 0]
            { x := 30, y := 260 }).y ≤
        ((HEIGHT - 20 -
          (applyCmds [PaddleCmd.move 1, PaddleCmd.aiMove 300 0]
            { x := 30, y := 260 }).height : ℤ) : ℝ) := by
  apply paddle_y_bounded
  · norm_num
  · norm_num [HEIGHT]

/-- Which side a scoring event awards a point to. -/
inductive Side where
  | left
  | right
deriving DecidableEq

/-- Ball entity: position, velocity, scalar speed, radius (source class Ball).
Trail and particle lists are cosmetic and omitted. -/
structure Ball where
  x : ℝ
  y : ℝ
  vx : ℝ
  vy : ℝ
  speed : ℝ
  radius : ℝ := 12

/-- `Ball.reset_ball()` (source lines 231-239): speed back to 6, random
launch angle uniform in `[-pi/6, pi/6]` (parameter `theta`), optional 180
degree flip (parameter `flip`), velocity `speed * (cos, sin)` of the angle,
position back to `(WIDTH // 2, HEIGHT // 2)`. -/
def Ball.reset_ball (b : Ball) (theta : ℝ) (flip : Bool) : Ball :=
  { b with speed := 6,
           vx := 6 * Real.cos (if flip then theta + π else theta),
           vy := 6 * Real.sin (if flip then theta + π else theta),
           x := ((pydiv WIDTH 2 : ℤ) : ℝ),
           y := ((pydiv HEIGHT 2 : ℤ) : ℝ) }

/-- Wall-collision condition of `Ball.update` (source line 254), phrased on
the pre-state: the post-move y is inside the top or bottom border band. -/
def wallCond (b : Ball) : Prop :=
  b.y + b.vy - b.radius ≤ 20 ∨ ((HEIGHT : ℝ) - 20) ≤ b.y + b.vy + b.radius

instance (b : Ball) : Decidable (wallCond b) := by
  unfold wallCond; infer_instance

/-- Position integration plus wall reflection of `Ball.update`
(source lines 242-258). -/
def Ball.step_move (b : Ball) : Ball :=
  { b with x := b.x + b.vx, y := b.y + b.vy,
           vy := if wallCond b then -b.vy else b.vy }

/-- Result of one `Ball.update` call: the new ball, whether the wall-hit
branch ran (the wall-hit sound event), and which side scored, if any. -/
structure UpdateResult where
  ball : Ball
  wallHit : Prop
  scored : Option Side

/-- `Ball.update()` (source lines 241-274): integrate position, reflect vy
inside a border band, then score and reset when x has exited the playfield
(x < 0 scores for the right side, x > WIDTH for the left side). The random
draws of the embedded `reset_ball` call are the `theta`/`flip` parameters. -/
def Ball.update (b : Ball) (theta : ℝ) (flip : Bool) : UpdateResult :=
  if b.step_move.x < 0 then
    { ball := b.step_move.reset_ball theta flip, wallHit := wallCond b,
      scored := some Side.right }
  else if (WIDTH : ℝ) < b.step_move.x then
    { ball := b.step_move.reset_ball theta flip, wallHit := wallCond b,
      scored := some Side.left }
  else
    { ball := b.step_move, wallHit := wallCond b, scored := none }

/-- Overlap test of `Ball.check_paddle_collision` (source lines 277-280):
the ball bounding square against the paddle rectangle. -/
def overlap (b : Ball) (p : Paddle) : Prop :=
  b.x - b.radius ≤ ((p.x + p.width : ℤ) : ℝ) ∧
  (p.x : ℝ) ≤ b.x + b.radius ∧
  b.y - b.radius ≤ p.y + (p.height : ℝ) ∧
  p.y ≤ b.y + b.radius

instance (b : Ball) (p : Paddle) : Decidable (overlap b p) := by
  unfold overlap; infer_instance

/-- `paddle_center` of the collision handler (source line 283):
`paddle.y + paddle.height // 2`. -/
def paddle_center (p : Paddle) : ℝ := p.y + ((pydiv p.height 2 : ℤ) : ℝ)

/-- `hit_pos` of the collision handler (source line 284):
`(ball.y - paddle_center) / (paddle.height // 2)`. -/
def hit_pos (b : Ball) (p : Paddle) : ℝ :=
  (b.y - paddle_center p) / ((pydiv p.height 2 : ℤ) : ℝ)

/-- `bounce_angle` of the collision handler (source line 285):
`hit_pos * pi / 3`, i.e. sixty degrees at `hit_pos = 1`. -/
def bounce_angle (b : Ball) (p : Paddle) : ℝ := hit_pos b p * (π / 3)

/-- Horizontal velocity after the direction flip of the collision handler
(source lines 288-291): `abs(vx)` for a left-half paddle, `-abs(vx)` for a
right-half paddle. -/
def vx_dir (b : Ball) (p : Paddle) : ℝ :=
  if p.x < pydiv WIDTH 2 then |b.vx| else -|b.vx|

/-- Vertical velocity set by the collision handler before renormalization
(source line 293): `speed * sin(bounce_angle)`, with the pre-bounce speed. -/
def vy_pre (b : Ball) (p : Paddle) : ℝ := b.speed * Real.sin (bounce_angle b p)

/-- `speed_magnitude` of the collision handler (source line 297): the length
of the velocity vector after the direction flip and the vy assignment. -/
def speed_magnitude (b : Ball) (p : Paddle) : ℝ :=
  Real.sqrt (vx_dir b p ^ 2 + vy_pre b p ^ 2)

/-- Ball state written back by the overlap branch of the collision handler
(source lines 293-299): vy from the bounce angle, speed raised by 0.2 up to
the cap 12, velocity renormalized to the new speed. -/
def Ball.bounced (b : Ball) (p : Paddle) : Ball :=
  { b with vx := vx_dir b p / speed_magnitude b p * min 12 (b.speed + 0.2),
           vy := vy_pre b p / speed_magnitude b p * min 12 (b.speed + 0.2),
           speed := min 12 (b.speed + 0.2) }

/-- `Ball.check_paddle_collision(paddle)` (source lines 276-307). On overlap
the handler computes the bounce angle from the hit position, flips vx away
from the paddle, sets vy from the bounce angle, raises the speed by 0.2 up
to the cap 12, and renormalizes the velocity to the new speed. Python
raises `ZeroDivisionError` when `paddle.height // 2 = 0` (the `hit_pos`
division) or when the velocity magnitude is zero (the renormalization
division); those runs are modelled as `none`. Returns the `True`/`False`
collision flag paired with the updated ball. -/
def Ball.check_paddle_collision (b : Ball) (p : Paddle) : Option (Bool × Ball) :=
  if overlap b p then
    if pydiv p.height 2 = 0 then none
    else if speed_magnitude b p = 0 then none
    else some (true, b.bounced p)
  else some (false, b)

lemma pydiv_eighty : pydiv 80 2 = 40 := by decide

lemma pydiv_width : pydiv WIDTH 2 = 500 := by decide

lemma pydiv_height : pydiv HEIGHT 2 = 300 := by decide

lemma cos_pos_of_abs_le (theta : ℝ) (h1 : -(π/6) ≤ theta) (h2 : theta ≤ π/6) :
    0 < Real.cos theta := by
  have hpi := Real.pi_pos
  exact Real.cos_pos_of_mem_Ioo ⟨by linarith, by linarith⟩

lemma reset_ball_vx_ne (b : Ball) (theta : ℝ) (flip : Bool)
    (htheta : theta ∈ Set.Icc (-(π/6)) (π/6)) :
    (b.reset_ball theta flip).vx ≠ 0 := by
  have hc : 0 < Real.cos theta := cos_pos_of_abs_le theta htheta.1 htheta.2
  unfold Ball.reset_ball
  cases flip with
  | false => simpa using ne_of_gt (by nlinarith)
  | true =>
    have : Real.cos (theta + π) = -Real.cos theta := by
      rw [Real.cos_add]; simp
    simp only [if_true]
    rw [this]
    nlinarith

lemma reset_ball_speed (b : Ball) (theta : ℝ) (flip : Bool) :
    (b.reset_ball theta flip).speed = 6 := rfl

lemma reset_ball_radius (b : Ball) (theta : ℝ) (flip : Bool) :
    (b.reset_ball theta flip).radius = b.radius := rfl

/-- C4: for every prior ball state and every outcome of the random draws,
`reset_ball` puts the ball at `(WIDTH/2, HEIGHT/2) = (500, 300)`, restores
the base speed 6, gives the velocity magnitude exactly the base speed, and
launches at an angle within thirty degrees of horizontal modulo the
optional 180 degree flip. -/
theorem reset_round_spec (b : Ball) (theta : ℝ) (flip : Bool)
    (htheta : theta ∈ Set.Icc (-(π/6)) (π/6)) :
    (b.reset_ball theta flip).x = 500 ∧ (b.reset_ball theta flip).y = 300 ∧
    (b.reset_ball theta flip).speed = 6 ∧
    Real.sqrt ((b.reset_ball theta flip).vx ^ 2 + (b.reset_ball theta flip).vy ^ 2) = 6 ∧
    ∃ phi, (b.reset_ball theta flip).vx = 6 * Real.cos phi ∧
      (b.reset_ball theta flip).vy = 6 * Real.sin phi ∧
      (|phi| ≤ π/6 ∨ |phi - π| ≤ π/6) := by
  refine ⟨?_, ?_, rfl, ?_, ?_⟩
  · show ((pydiv WIDTH 2 : ℤ) : ℝ) = 500
    rw [pydiv_width]; norm_num
  · show ((pydiv HEIGHT 2 : ℤ) : ℝ) = 300
    rw [pydiv_height]; norm_num
  · show Real.sqrt ((6 * Real.cos _) ^ 2 + (6 * Real.sin _) ^ 2) = 6
    have hid := Real.sin_sq_add_cos_sq (if flip then theta + π else theta)
    have h36 : (6 * Real.cos (if flip then theta + π else theta)) ^ 2 +
        (6 * Real.sin (if flip then theta + π else theta)) ^ 2 = 6 ^ 2 := by nlinarith
    rw [h36, Real.sqrt_sq (by norm_num)]
  · refine ⟨if flip then theta + π else theta, rfl, rfl, ?_⟩
    cases flip with
    | false => exact Or.inl (by simpa using abs_le.mpr ⟨htheta.1, htheta.2⟩)
    | true => exact Or.inr (by simpa using abs_le.mpr ⟨htheta.1, htheta.2⟩)

/-- Witness for C4 at the concrete draw `theta = 0`, no flip. -/
theorem reset_round_spec_witness :
    (Ball.reset_ball { x := 0, y := 0, vx := 0, vy := 0, speed := 0 } 0 false).x = 500 ∧
    (Ball.reset_ball { x := 0, y := 0, vx := 0, vy := 0, speed := 0 } 0 false).y = 300 ∧
    (Ball.reset_ball { x := 0, y := 0, vx := 0, vy := 0, speed := 0 } 0 false).speed = 6 ∧
    Real.sqrt ((Ball.reset_ball { x := 0, y := 0, vx := 0, vy := 0, speed := 0 } 0 false).vx ^ 2 +
      (Ball.reset_ball { x := 0, y := 0, vx := 0, vy := 0, speed := 0 } 0 false).vy ^ 2) = 6 ∧
    ∃ phi, (Ball.reset_ball { x := 0, y := 0, vx := 0, vy := 0, speed := 0 } 0 false).vx =
        6 * Real.cos phi ∧
      (Ball.reset_ball { x := 0, y := 0, vx := 0, vy := 0, speed := 0 } 0 false).vy =
        6 * Real.sin phi ∧
      (|phi| ≤ π/6 ∨ |phi - π| ≤ π/6) :=
  reset_round_spec _ 0 false ⟨by nlinarith [Real.pi_pos], by nlinarith [Real.pi_pos]⟩

/-- Ball used to refute the sixty-degree bound of C1: it overlaps the
default paddle at the extreme admitted position, one radius below the
bottom edge of the paddle. -/
def ballEdge : Ball := { x := 40, y := 192, vx := 6, vy := 0, speed := 6 }

/-- Default-geometry paddle for the C1 counterexample. -/
def paddleEdge : Paddle := { x := 30, y := 100 }

/-- Counterexample to C1 as stated: at an overlap position admitted by the
collision test the bounce angle strictly exceeds sixty degrees (pi/3);
`hit_pos` reaches 1.3 because the overlap test admits ball centers up to
one radius beyond the paddle edge and nothing clamps the ratio. -/
theorem bounce_angle_exceeds_sixty :
    overlap ballEdge paddleEdge ∧ π/3 < |bounce_angle ballEdge paddleEdge| := by
  constructor
  · unfold overlap ballEdge paddleEdge
    norm_num
  · have hb : bounce_angle ballEdge paddleEdge = 13/10 * (π/3) := by
      unfold bounce_angle hit_pos paddle_center ballEdge paddleEdge
      simp only [pydiv_eighty]
      norm_num
    rw [hb, abs_of_pos (by positivity)]
    nlinarith [Real.pi_pos]

/-- C1 amended: over the default geometry (paddle height 80, ball radius
12), the bounce angle satisfies the source formula `hit_pos * 60` degrees
and is bounded by 1.3 times sixty degrees (78 degrees), not sixty; a hit at
the exact paddle center still gives a purely horizontal rebound, with the
post-bounce vy equal to zero. -/
theorem bounce_angle_bound_and_center_hit (b : Ball) (p : Paddle)
    (hov : overlap b p) (hh : p.height = 80) (hr : b.radius = 12) :
    |bounce_angle b p| ≤ 13/10 * (π/3) ∧
    (b.y = paddle_center p → b.vx ≠ 0 →
      ∃ b', b.check_paddle_collision p = some (true, b') ∧ b'.vy = 0) := by
  have h40 : ((pydiv p.height 2 : ℤ) : ℝ) = 40 := by
    rw [hh, pydiv_eighty]; norm_num
  constructor
  · have hcenter : paddle_center p = p.y + 40 := by
      unfold paddle_center; rw [h40]
    have hup : b.y - paddle_center p ≤ 52 := by
      have := hov.2.2.1
      rw [hr] at this; rw [hh] at this
      push_cast at this
      rw [hcenter]; linarith
    have hdown : -52 ≤ b.y - paddle_center p := by
      have := hov.2.2.2
      rw [hr] at this
      rw [hcenter]; linarith
    have habs : |b.y - paddle_center p| ≤ 52 := abs_le.mpr ⟨hdown, hup⟩
    have hhp : |hit_pos b p| ≤ 13/10 := by
      unfold hit_pos
      rw [abs_div, h40]
      rw [abs_of_pos (by norm_num : (0:ℝ) < 40)]
      rw [div_le_iff₀ (by norm_num : (0:ℝ) < 40)]
      linarith
    unfold bounce_angle
    rw [abs_mul, abs_of_pos (by positivity : (0:ℝ) < π/3)]
    have := Real.pi_pos
    nlinarith
  · intro hc hvx
    have hhp0 : hit_pos b p = 0 := by
      unfold hit_pos; rw [hc, sub_self, zero_div]
    have hvy0 : vy_pre b p = 0 := by
      unfold vy_pre bounce_angle
      rw [hhp0, zero_mul, Real.sin_zero, mul_zero]
    have hvxsq : vx_dir b p ^ 2 = b.vx ^ 2 := by
      unfold vx_dir
      split
      · exact sq_abs _
      · rw [neg_pow]; simp [sq_abs]
    have hm : speed_magnitude b p ≠ 0 := by
      unfold speed_magnitude
      rw [hvy0, hvxsq]
      have h2 : (0:ℝ) < b.vx ^ 2 := pow_two_pos_of_ne_zero hvx
      positivity
    have hhne : pydiv p.height 2 ≠ 0 := by rw [hh, pydiv_eighty]; norm_num
    refine ⟨b.bounced p, ?_, ?_⟩
    · unfold Ball.check_paddle_collision
      rw [if_pos hov, if_neg hhne, if_neg hm]
    · show vy_pre b p / speed_magnitude b p * min 12 (b.speed + 0.2) = 0
      rw [hvy0, zero_div, zero_mul]

/-- Witness for the amended C1 at a concrete center hit. -/
theorem bounce_angle_bound_and_center_hit_witness :
    |bounce_angle { x := 40, y := 140, vx := 6, vy := 0, speed := 6 } paddleEdge| ≤
        13/10 * (π/3) ∧
    (({ x := 40, y := 140, vx := 6, vy := 0, speed := 6 } : Ball).y =
          paddle_center paddleEdge →
      ({ x := 40, y := 140, vx := 6, vy := 0, speed := 6 } : Ball).vx ≠ 0 →
      ∃ b', Ball.check_paddle_collision
          { x := 40, y := 140, vx := 6, vy := 0, speed := 6 } paddleEdge =
            some (true, b') ∧ b'.vy = 0) := by
  apply bounce_angle_bound_and_center_hit
  · unfold overlap paddleEdge
    norm_num
  · rfl
  · rfl

/-- Ball used to refute C6: after the frame move it sits at `(-1, 25)`,
simultaneously inside the top border band and beyond the left edge. -/
def ballCorner : Ball := { x := 5, y := 26, vx := -6, vy := -1, speed := 6 }

/-- Counterexample to C6 as stated: a single `update` call both runs the
wall-reflection branch and scores a point for the right side. -/
theorem wall_and_score_same_frame :
    (ballCorner.update 0 false).wallHit ∧
      (ballCorner.update 0 false).scored = some Side.right := by
  have hx : ballCorner.step_move.x < 0 := by
    unfold Ball.step_move ballCorner; norm_num
  have hw : wallCond ballCorner := by
    unfold wallCond ballCorner
    norm_num
  unfold Ball.update
  rw [if_pos hx]
  exact ⟨hw, rfl⟩

/-- C6 amended: within one `update`, the wall-reflection branch fires
exactly when the moved y sits in a border band and the score event fires
exactly when the moved x has exited the playfield; the two conditions read
independent coordinates, so they can co-occur (a corner exit), and the
reflection itself leaves x untouched and hence never causes a score. -/
theorem wall_score_independent (b : Ball) (theta : ℝ) (flip : Bool) :
    ((b.update theta flip).wallHit ↔ wallCond b) ∧
    ((b.update theta flip).scored = none ↔
      0 ≤ b.x + b.vx ∧ b.x + b.vx ≤ (WIDTH : ℝ)) ∧
    b.step_move.x = b.x + b.vx := by
  have hx : b.step_move.x = b.x + b.vx := rfl
  refine ⟨?_, ?_, hx⟩
  · unfold Ball.update
    split
    · exact Iff.rfl
    · split
      · exact Iff.rfl
      · exact Iff.rfl
  · unfold Ball.update
    rw [hx]
    split
    · simp only [iff_false]
      constructor
      · intro hcon
        exact absurd hcon (by simp)
      · next hlt =>
        intro hcon
        exact absurd hcon (by simp; intro h1; linarith)
    · next hge =>
      split
      · next hgt =>
        constructor
        · intro hcon; exact absurd hcon (by simp)
        · intro hcon; linarith [hcon.2]
      · next hle =>
        simp only [true_iff]
        constructor
        · linarith [not_lt.mp hge]
        · linarith [not_lt.mp hle]

lemma collision_cases (b : Ball) (p : Paddle) (r : Bool) (b' : Ball)
    (h : b.check_paddle_collision p = some (r, b')) :
    (r = false ∧ b' = b) ∨
    (r = true ∧ overlap b p ∧ pydiv p.height 2 ≠ 0 ∧ speed_magnitude b p ≠ 0 ∧
      b' = b.bounced p) := by
  unfold Ball.check_paddle_collision at h
  by_cases hov : overlap b p
  · rw [if_pos hov] at h
    by_cases hh : pydiv p.height 2 = 0
    · rw [if_pos hh] at h; exact absurd h (by simp)
    · rw [if_neg hh] at h
      by_cases hm : speed_magnitude b p = 0
      · rw [if_pos hm] at h; exact absurd h (by simp)
      · rw [if_neg hm] at h
        simp only [Option.some.injEq, Prod.mk.injEq] at h
        exact Or.inr ⟨h.1.symm, hov, hh, hm, h.2.symm⟩
  · rw [if_neg hov] at h
    simp only [Option.some.injEq, Prod.mk.injEq] at h
    exact Or.inl ⟨h.1.symm, h.2.symm⟩

lemma vx_dir_sq (b : Ball) (p : Paddle) : vx_dir b p ^ 2 = b.vx ^ 2 := by
  unfold vx_dir
  split
  · exact sq_abs _
  · rw [neg_pow]; simp [sq_abs]

lemma vx_dir_ne (b : Ball) (p : Paddle) (hvx : b.vx ≠ 0) : vx_dir b p ≠ 0 := by
  unfold vx_dir
  split
  · exact abs_ne_zero.mpr hvx
  · exact neg_ne_zero.mpr (abs_ne_zero.mpr hvx)

lemma speed_magnitude_ne (b : Ball) (p : Paddle) (hvx : b.vx ≠ 0) :
    speed_magnitude b p ≠ 0 := by
  unfold speed_magnitude
  have h2 : (0:ℝ) < b.vx ^ 2 := pow_two_pos_of_ne_zero hvx
  have h3 : (0:ℝ) < vx_dir b p ^ 2 + vy_pre b p ^ 2 := by
    rw [vx_dir_sq]
    nlinarith [sq_nonneg (vy_pre b p)]
  positivity

lemma bounced_speed_pos (b : Ball) (hs : 0 < b.speed) :
    (0:ℝ) < min 12 (b.speed + 0.2) :=
  lt_min (by norm_num) (by linarith)

lemma bounced_vx_ne (b : Ball) (p : Paddle) (hvx : b.vx ≠ 0) (hs : 0 < b.speed) :
    (b.bounced p).vx ≠ 0 := by
  show vx_dir b p / speed_magnitude b p * min 12 (b.speed + 0.2) ≠ 0
  exact mul_ne_zero (div_ne_zero (vx_dir_ne b p hvx) (speed_magnitude_ne b p hvx))
    (ne_of_gt (bounced_speed_pos b hs))

lemma pydiv_pos_of_two_le (h : ℤ) (hh : 2 ≤ h) : pydiv h 2 ≠ 0 := by
  unfold pydiv
  rw [Int.fdiv_eq_ediv _ (by norm_num : (0:ℤ) ≤ 2)]
  have h1 : (1:ℤ) ≤ h / 2 :=
    (Int.le_ediv_iff_mul_le (by norm_num : (0:ℤ) < 2)).mpr (by linarith)
  omega

lemma collision_total (b : Ball) (p : Paddle) (hvx : b.vx ≠ 0) (hh : 2 ≤ p.height) :
    ∃ r b', b.check_paddle_collision p = some (r, b') := by
  unfold Ball.check_paddle_collision
  by_cases hov : overlap b p
  · rw [if_pos hov, if_neg (pydiv_pos_of_two_le p.height hh),
      if_neg (speed_magnitude_ne b p hvx)]
    exact ⟨true, b.bounced p, rfl⟩
  · rw [if_neg hov]
    exact ⟨false, b, rfl⟩

lemma update_ball_cases (b : Ball) (theta : ℝ) (flip : Bool) :
    (b.update theta flip).ball = b.step_move ∨
    (b.update theta flip).ball = b.step_move.reset_ball theta flip := by
  unfold Ball.update
  split
  · exact Or.inr rfl
  · split
    · exact Or.inr rfl
    · exact Or.inl rfl

/-- Ball states reachable from a round reset by the simulation-core
operations: the reset itself, frame updates, and paddle-collision
resolutions. The random draws carry their support as hypotheses. -/
inductive Reach : Ball → Prop
  | reset (b : Ball) (theta : ℝ) (flip : Bool)
      (htheta : theta ∈ Set.Icc (-(π/6)) (π/6)) : Reach (b.reset_ball theta flip)
  | update (b : Ball) (theta : ℝ) (flip : Bool) (hb : Reach b)
      (htheta : theta ∈ Set.Icc (-(π/6)) (π/6)) : Reach ((b.update theta flip).ball)
  | collide (b : Ball) (p : Paddle) (r : Bool) (b' : Ball) (hb : Reach b)
      (h : b.check_paddle_collision p = some (r, b')) : Reach b'

lemma reach_invariant (b : Ball) (h : Reach b) :
    b.vx ≠ 0 ∧ 6 ≤ b.speed ∧ b.speed ≤ 12 := by
  induction h with
  | reset b theta flip htheta =>
    refine ⟨reset_ball_vx_ne b theta flip htheta, ?_, ?_⟩
    · rw [reset_ball_speed]
    · rw [reset_ball_speed]; norm_num
  | update b theta flip hb htheta ih =>
    rcases update_ball_cases b theta flip with he | he
    · rw [he]
      exact ⟨ih.1, ih.2.1, ih.2.2⟩
    · rw [he]
      refine ⟨reset_ball_vx_ne _ theta flip htheta, ?_, ?_⟩
      · rw [reset_ball_speed]
      · rw [reset_ball_speed]; norm_num
  | collide b p r b' hb h ih =>
    rcases collision_cases b p r b' h with ⟨_, rfl⟩ | ⟨_, hov, hh, hm, rfl⟩
    · exact ih
    · refine ⟨bounced_vx_ne b p ih.1 (by linarith [ih.2.1]), ?_, ?_⟩
      · show 6 ≤ min (12:ℝ) (b.speed + 0.2)
        exact le_min (by norm_num) (by linarith [ih.2.1])
      · show min (12:ℝ) (b.speed + 0.2) ≤ 12
        exact min_le_left _ _

/-- C2: after any paddle collision that returns `True`, in any ball state
reachable within a rally, the new speed is exactly `min(12, speed + 0.2)`,
so the speed is non-decreasing, stays within the base/max band `[6, 12]`,
and the velocity magnitude equals the new speed exactly. -/
theorem collision_speed_spec (b : Ball) (p : Paddle) (b' : Ball) (hb : Reach b)
    (h : b.check_paddle_collision p = some (true, b')) :
    b'.speed = min 12 (b.speed + 0.2) ∧
    b.speed ≤ b'.speed ∧ 6 ≤ b'.speed ∧ b'.speed ≤ 12 ∧
    Real.sqrt (b'.vx ^ 2 + b'.vy ^ 2) = b'.speed := by
  obtain ⟨hvx, hs6, hs12⟩ := reach_invariant b hb
  rcases collision_cases b p true b' h with ⟨hfalse, _⟩ | ⟨_, hov, hh, hm, rfl⟩
  · exact absurd hfalse (by simp)
  · have hsum : vx_dir b p ^ 2 + vy_pre b p ^ 2 = speed_magnitude b p ^ 2 := by
      unfold speed_magnitude
      rw [Real.sq_sqrt (by positivity)]
    have hs1 : (0:ℝ) < min 12 (b.speed + 0.2) := bounced_speed_pos b (by linarith)
    have hcancel : speed_magnitude b p * (min 12 (b.speed + 0.2) / speed_magnitude b p) =
        min 12 (b.speed + 0.2) := by
      field_simp
    have key : (b.bounced p).vx ^ 2 + (b.bounced p).vy ^ 2 =
        min (12:ℝ) (b.speed + 0.2) ^ 2 := by
      show (vx_dir b p / speed_magnitude b p * min 12 (b.speed + 0.2)) ^ 2 +
          (vy_pre b p / speed_magnitude b p * min 12 (b.speed + 0.2)) ^ 2 = _
      calc (vx_dir b p / speed_magnitude b p * min 12 (b.speed + 0.2)) ^ 2 +
          (vy_pre b p / speed_magnitude b p * min 12 (b.speed + 0.2)) ^ 2
          = (vx_dir b p ^ 2 + vy_pre b p ^ 2) *
              (min 12 (b.speed + 0.2) / speed_magnitude b p) ^ 2 := by ring
        _ = speed_magnitude b p ^ 2 *
              (min 12 (b.speed + 0.2) / speed_magnitude b p) ^ 2 := by rw [hsum]
        _ = (speed_magnitude b p * (min 12 (b.speed + 0.2) / speed_magnitude b p)) ^ 2 := by
              ring
        _ = min (12:ℝ) (b.speed + 0.2) ^ 2 := by rw [hcancel]
    refine ⟨rfl, le_min hs12 (by linarith), le_min (by norm_num) (by linarith),
      min_le_left _ _, ?_⟩
    rw [key]
    exact Real.sqrt_sq hs1.le

/-- Membership of the draw `theta = 0` in the launch-angle support. -/
lemma zero_in_support : (0:ℝ) ∈ Set.Icc (-(π/6)) (π/6) :=
  ⟨neg_nonpos_of_nonneg (by positivity), by positivity⟩

/-- Concrete reachable ball: the state right after a round reset with the
draw `theta = 0` and no flip; it sits at the playfield center moving right. -/
def ballMid : Ball :=
  Ball.reset_ball { x := 0, y := 0, vx := 0, vy := 0, speed := 0 } 0 false

/-- Paddle placed so that it overlaps `ballMid` at the paddle center. -/
def paddleMid : Paddle := { x := 480, y := 260, width := 40 }

lemma ballMid_reach : Reach ballMid :=
  Reach.reset _ 0 false zero_in_support

lemma ballMid_collision :
    ballMid.check_paddle_collision paddleMid = some (true, ballMid.bounced paddleMid) := by
  unfold Ball.check_paddle_collision
  rw [if_pos ?hov, if_neg ?hh, if_neg ?hm]
  case hov =>
    unfold overlap ballMid Ball.reset_ball paddleMid
    simp only [pydiv_width, pydiv_height]
    norm_num
  case hh =>
    show pydiv (80:ℤ) 2 ≠ 0
    rw [pydiv_eighty]; norm_num
  case hm =>
    exact speed_magnitude_ne _ _ (reset_ball_vx_ne _ 0 false zero_in_support)

/-- Witness for C2 at a concrete reachable ball and overlapping paddle. -/
theorem collision_speed_spec_witness :
    (ballMid.bounced paddleMid).speed = min 12 (ballMid.speed + 0.2) ∧
    ballMid.speed ≤ (ballMid.bounced paddleMid).speed ∧
    6 ≤ (ballMid.bounced paddleMid).speed ∧ (ballMid.bounced paddleMid).speed ≤ 12 ∧
    Real.sqrt ((ballMid.bounced paddleMid).vx ^ 2 + (ballMid.bounced paddleMid).vy ^ 2) =
      (ballMid.bounced paddleMid).speed :=
  collision_speed_spec ballMid paddleMid (ballMid.bounced paddleMid)
    ballMid_reach ballMid_collision

/-- C9: every state reachable from a round reset has nonzero horizontal
velocity, so the velocity-magnitude divisor inside the collision handler is
never zero, and on any paddle of height at least 2 (the game paddles have
height 80) the collision check always returns a value instead of raising:
the simulation-core operations are total on the reachable domain. -/
theorem simulation_total (b : Ball) (hb : Reach b) :
    b.vx ≠ 0 ∧ (∀ p : Paddle, speed_magnitude b p ≠ 0) ∧
    ∀ p : Paddle, 2 ≤ p.height →
      ∃ r b', b.check_paddle_collision p = some (r, b') := by
  have hinv := reach_invariant b hb
  exact ⟨hinv.1, fun p => speed_magnitude_ne b p hinv.1,
    fun p hp => collision_total b p hinv.1 hp⟩

/-- Witness for C9 at a concrete reachable ball and paddle. -/
theorem simulation_total_witness :
    ballMid.vx ≠ 0 ∧ speed_magnitude ballMid paddleMid ≠ 0 ∧
    ∃ r b', ballMid.check_paddle_collision paddleMid = some (r, b') := by
  have h := simulation_total ballMid ballMid_reach
  exact ⟨h.1, h.2.1 paddleMid, h.2.2 paddleMid (by norm_num [paddleMid])⟩

/-- Game phase, the string-valued `game_state` global of the source. -/
inductive Phase where
  | menu
  | playing
  | paused
  | game_over
deriving DecidableEq

/-- Game mode, the string-valued `game_mode` global of the source. -/
inductive Mode where
  | none
  | player_vs_player
  | player_vs_ai
deriving DecidableEq

/-- Winner indicator, the string-valued `winner` global of the source
(empty, "left" or "right"). -/
inductive Winner where
  | none
  | left
  | right
deriving DecidableEq

/-- Whole simulation-core state owned by the frame loop: the score and
state-machine globals, the two paddles, the ball, and the latched
directional input flags of `main`. -/
structure GameState where
  score_left : ℕ
  score_right : ℕ
  phase : Phase
  winner : Winner
  mode : Mode
  left_paddle : Paddle
  right_paddle : Paddle
  ball : Ball
  left_up : Bool
  left_down : Bool
  right_up : Bool
  right_down : Bool

/-- `reset_game()` (source lines 427-436): zero both scores; from
`game_over` return to the menu and clear the mode, otherwise go to
`playing` and keep the mode. -/
def reset_game (s : GameState) : GameState :=
  if s.phase = Phase.game_over then
    { s with score_left := 0, score_right := 0,
             phase := Phase.menu, mode := Mode.none }
  else
    { s with score_left := 0, score_right := 0, phase := Phase.playing }

/-- Key-down events the state machine reacts to (q only ends the loop and
key-up events only clear latched flags; neither affects the claims). -/
inductive Key where
  | space
  | p
  | r
  | k1
  | k2
  | w
  | s
  | up
  | down
deriving DecidableEq

/-- Key-down event handling of `main` (source lines 458-501): the
space/p/r transition chain, then mode selection when the (possibly updated)
phase is the menu, then the latched paddle flags when the phase is playing. -/
def processKeyDown (k : Key) (s : GameState) : GameState :=
  let s1 :=
    match k with
    | Key.space =>
        if s.phase = Phase.menu ∧ s.mode ≠ Mode.none then
          reset_game { s with phase := Phase.playing }
        else if s.phase = Phase.playing then { s with phase := Phase.paused }
        else if s.phase = Phase.paused then { s with phase := Phase.playing }
        else s
    | Key.p =>
        if s.phase = Phase.playing then { s with phase := Phase.paused }
        else if s.phase = Phase.paused then { s with phase := Phase.playing }
        else s
    | Key.r => reset_game s
    | _ => s
  let s2 :=
    if s1.phase = Phase.menu then
      match k with
      | Key.k1 => reset_game { s1 with mode := Mode.player_vs_player,
                                       phase := Phase.playing }
      | Key.k2 => reset_game { s1 with mode := Mode.player_vs_ai,
                                       phase := Phase.playing }
      | _ => s1
    else s1
  if s2.phase = Phase.playing then
    let s3 :=
      match k with
      | Key.w => { s2 with left_up := true }
      | Key.s => { s2 with left_down := true }
      | _ => s2
    if s2.mode = Mode.player_vs_player then
      match k with
      | Key.up => { s3 with right_up := true }
      | Key.down => { s3 with right_down := true }
      | _ => s3
    else s3
  else s2

/-- Per-frame win check of `main` (source lines 541-547): the first side at
`max_score` becomes the winner and the phase moves to `game_over`. -/
def winCheck (s : GameState) : GameState :=
  if max_score ≤ s.score_left then
    { s with winner := Winner.left, phase := Phase.game_over }
  else if max_score ≤ s.score_right then
    { s with winner := Winner.right, phase := Phase.game_over }
  else s

/-- Manual paddle movement of one frame (source lines 522-525 and
529-532): step up when the up flag is latched, then step down when the
down flag is latched. -/
def manualMove (p : Paddle) (up down : Bool) : Paddle :=
  if down then (if up then p.move (-1) else p).move 1
  else (if up then p.move (-1) else p)

/-- Left paddle after the movement block of one frame. -/
def leftPaddleMove (s : GameState) : Paddle :=
  manualMove s.left_paddle s.left_up s.left_down

/-- Right paddle after the movement block of one frame (source lines
527-534): manual in player-vs-player mode, automated in AI mode, untouched
otherwise. -/
def rightPaddleMove (s : GameState) (rAI : ℝ) : Paddle :=
  if s.mode = Mode.player_vs_player then
    manualMove s.right_paddle s.right_up s.right_down
  else if s.mode = Mode.player_vs_ai then
    s.right_paddle.ai_move s.ball.y rAI
  else s.right_paddle

/-- Score counter after one ball update: incremented when the update
scored for the given side. -/
def scoreAfter (sc : ℕ) (ev : Option Side) (side : Side) : ℕ :=
  if ev = some side then sc + 1 else sc

/-- State written back by the playing branch of the frame loop: moved
paddles, post-collision ball, scores updated from the score event. -/
def framePost (s : GameState) (rAI : ℝ) (b3 : Ball) (ev : Option Side) : GameState :=
  { s with left_paddle := leftPaddleMove s,
           right_paddle := rightPaddleMove s rAI, ball := b3,
           score_left := scoreAfter s.score_left ev Side.left,
           score_right := scoreAfter s.score_right ev Side.right }

/-- One pass of the game-logic block of `main` (source lines 519-547),
which runs only while the phase is `playing`: latched manual paddle moves,
the automated right paddle in AI mode (random offset `rAI`), the ball
update (random reset draws `theta`/`flip`), both collision checks, and the
win check. A `none` result is a Python `ZeroDivisionError` escaping from a
collision check. -/
def gameFrame (s : GameState) (rAI theta : ℝ) (flip : Bool) : Option GameState :=
  if s.phase = Phase.playing then
    match (s.ball.update theta flip).ball.check_paddle_collision (leftPaddleMove s) with
    | none => none
    | some (_, b2) =>
      match b2.check_paddle_collision (rightPaddleMove s rAI) with
      | none => none
      | some (_, b3) =>
        some (winCheck (framePost s rAI b3 (s.ball.update theta flip).scored))
  else some s

lemma manualMove_height (p : Paddle) (u d : Bool) :
    (manualMove p u d).height = p.height := by
  unfold manualMove
  by_cases hd : d <;> by_cases hu : u <;> simp [hd, hu, move_height]

lemma leftPaddleMove_height (s : GameState) :
    (leftPaddleMove s).height = s.left_paddle.height :=
  manualMove_height _ _ _

lemma rightPaddleMove_height (s : GameState) (rAI : ℝ) :
    (rightPaddleMove s rAI).height = s.right_paddle.height := by
  unfold rightPaddleMove
  split
  · exact manualMove_height _ _ _
  · split
    · exact ai_move_height _ _ _
    · rfl

lemma rightPaddleMove_of_mode_none (s : GameState) (rAI : ℝ)
    (hm : s.mode = Mode.none) : rightPaddleMove s rAI = s.right_paddle := by
  unfold rightPaddleMove
  rw [hm]
  simp

lemma collision_post_vx_ne (b : Ball) (p : Paddle) (r : Bool) (b' : Ball)
    (h : b.check_paddle_collision p = some (r, b')) (hvx : b.vx ≠ 0)
    (hs : 0 < b.speed) : b'.vx ≠ 0 ∧ 0 < b'.speed := by
  rcases collision_cases b p r b' h with ⟨_, rfl⟩ | ⟨_, _, _, _, rfl⟩
  · exact ⟨hvx, hs⟩
  · exact ⟨bounced_vx_ne b p hvx hs, bounced_speed_pos b hs⟩

lemma winCheck_right_paddle (t : GameState) :
    (winCheck t).right_paddle = t.right_paddle := by
  unfold winCheck
  split
  · rfl
  · split
    · rfl
    · rfl

lemma winCheck_mode (t : GameState) : (winCheck t).mode = t.mode := by
  unfold winCheck
  split
  · rfl
  · split
    · rfl
    · rfl

/-- C7: `reset_game` invoked from `game_over` zeros both scores, returns
the phase to the menu and clears the mode to none; invoked from `playing`
or `paused` it zeros both scores, sets the phase to `playing` and leaves
the mode unchanged. -/
theorem reset_game_spec (s : GameState) :
    (s.phase = Phase.game_over →
      reset_game s = { s with score_left := 0, score_right := 0,
                              phase := Phase.menu, mode := Mode.none }) ∧
    (s.phase = Phase.playing ∨ s.phase = Phase.paused →
      reset_game s = { s with score_left := 0, score_right := 0,
                              phase := Phase.playing }) := by
  constructor
  · intro h
    unfold reset_game
    rw [if_pos h]
  · intro h
    have hne : ¬ s.phase = Phase.game_over := by
      rcases h with h | h <;> rw [h] <;> simp
    unfold reset_game
    rw [if_neg hne]

/-- Concrete game state used by witnesses: game paddles at their creation
coordinates, the ball at the playfield center after a reset, no latched
input. -/
def gs0 (ph : Phase) (m : Mode) : GameState :=
  { score_left := 0, score_right := 0, phase := ph, winner := Winner.none,
    mode := m, left_paddle := { x := 30, y := 260 },
    right_paddle := { x := 955, y := 260 }, ball := ballMid,
    left_up := false, left_down := false, right_up := false, right_down := false }

/-- Witness for C7 at concrete game-over and playing states. -/
theorem reset_game_spec_witness :
    reset_game (gs0 Phase.game_over Mode.player_vs_ai) =
      { (gs0 Phase.game_over Mode.player_vs_ai) with
          score_left := 0, score_right := 0,
          phase := Phase.menu, mode := Mode.none } ∧
    reset_game (gs0 Phase.playing Mode.player_vs_ai) =
      { (gs0 Phase.playing Mode.player_vs_ai) with
          score_left := 0, score_right := 0, phase := Phase.playing } :=
  ⟨(reset_game_spec _).1 rfl, (reset_game_spec _).2 (Or.inl rfl)⟩

/-- C8: from a playing state, one pause toggle (space or p) followed by a
second one returns the phase to `playing` with every simulation-state
component unchanged, and the frame run between the two toggles performs no
physics integration because the phase is `paused`. -/
theorem pause_toggle_spec (s : GameState) (rAI theta : ℝ) (flip : Bool)
    (h : s.phase = Phase.playing) :
    gameFrame (processKeyDown Key.space s) rAI theta flip =
      some (processKeyDown Key.space s) ∧
    processKeyDown Key.space (processKeyDown Key.space s) = s ∧
    processKeyDown Key.p (processKeyDown Key.p s) = s := by
  obtain ⟨sl, sr, ph, w, m, lp, rp, b, lu, ld, ru, rd⟩ := s
  have h' : ph = Phase.playing := h
  subst h'
  refine ⟨?_, ?_, ?_⟩
  · simp [processKeyDown, gameFrame]
  · simp [processKeyDown]
  · simp [processKeyDown]

/-- Witness for C8 at a concrete playing state. -/
theorem pause_toggle_spec_witness :
    gameFrame (processKeyDown Key.space (gs0 Phase.playing Mode.player_vs_player))
        0 0 false =
      some (processKeyDown Key.space (gs0 Phase.playing Mode.player_vs_player)) ∧
    processKeyDown Key.space
        (processKeyDown Key.space (gs0 Phase.playing Mode.player_vs_player)) =
      gs0 Phase.playing Mode.player_vs_player ∧
    processKeyDown Key.p
        (processKeyDown Key.p (gs0 Phase.playing Mode.player_vs_player)) =
      gs0 Phase.playing Mode.player_vs_player :=
  pause_toggle_spec _ 0 0 false rfl

/-- C10: pressing reset while the phase is the menu (mode none) moves the
phase straight to `playing` with the mode still none and scores zeroed —
a menu-to-playing transition without mode selection — and in any frame of
a game whose mode is none the right paddle is moved by neither control
branch and the mode stays none. -/
theorem menu_reset_spec :
    (∀ s : GameState, s.phase = Phase.menu → s.mode = Mode.none →
      (processKeyDown Key.r s).phase = Phase.playing ∧
      (processKeyDown Key.r s).mode = Mode.none ∧
      (processKeyDown Key.r s).score_left = 0 ∧
      (processKeyDown Key.r s).score_right = 0) ∧
    (∀ (s s' : GameState) (rAI theta : ℝ) (flip : Bool), s.mode = Mode.none →
      gameFrame s rAI theta flip = some s' →
      s'.right_paddle = s.right_paddle ∧ s'.mode = Mode.none) := by
  constructor
  · intro s hph hm
    obtain ⟨sl, sr, ph, w, m, lp, rp, b, lu, ld, ru, rd⟩ := s
    have h1 : ph = Phase.menu := hph
    have h2 : m = Mode.none := hm
    subst h1
    subst h2
    refine ⟨?_, ?_, ?_, ?_⟩ <;> simp [processKeyDown, reset_game]
  · intro s s' rAI theta flip hm hframe
    unfold gameFrame at hframe
    by_cases hph : s.phase = Phase.playing
    · rw [if_pos hph] at hframe
      rw [rightPaddleMove_of_mode_none s rAI hm] at hframe
      split at hframe
      · exact absurd hframe (by simp)
      · split at hframe
        · exact absurd hframe (by simp)
        · obtain rfl := Option.some.inj hframe
          constructor
          · rw [winCheck_right_paddle]
            exact rightPaddleMove_of_mode_none s rAI hm
          · rw [winCheck_mode]
            exact hm
    · rw [if_neg hph] at hframe
      obtain rfl := Option.some.inj hframe
      exact ⟨rfl, hm⟩

lemma gs0_menu_frame :
    gameFrame (gs0 Phase.menu Mode.none) 0 0 false =
      some (gs0 Phase.menu Mode.none) := by
  unfold gameFrame
  rw [if_neg (by simp [gs0])]

/-- Witness for C10 at a concrete menu state. -/
theorem menu_reset_spec_witness :
    (processKeyDown Key.r (gs0 Phase.menu Mode.none)).phase = Phase.playing ∧
    (processKeyDown Key.r (gs0 Phase.menu Mode.none)).mode = Mode.none ∧
    (processKeyDown Key.r (gs0 Phase.menu Mode.none)).score_left = 0 ∧
    (processKeyDown Key.r (gs0 Phase.menu Mode.none)).score_right = 0 ∧
    ((gs0 Phase.menu Mode.none).right_paddle =
        (gs0 Phase.menu Mode.none).right_paddle ∧
      (gs0 Phase.menu Mode.none).mode = Mode.none) := by
  have h1 := menu_reset_spec.1 (gs0 Phase.menu Mode.none) rfl rfl
  have h2 := menu_reset_spec.2 (gs0 Phase.menu Mode.none) (gs0 Phase.menu Mode.none)
    0 0 false rfl gs0_menu_frame
  exact ⟨h1.1, h1.2.1, h1.2.2.1, h1.2.2.2, h2⟩

lemma manualMove_false (p : Paddle) : manualMove p false false = p := by
  simp [manualMove]

/-- C5 amended: if the ball is at `x = -1` and still heading out
(`vx < 1`, so the integration step of `update` leaves it left of the
playfield), the right score is 9, the left score is below `max_score`, and
the phase is `playing`, then the frame scores the tenth point for the
right side, the phase transitions to `game_over` and the winner indicator
becomes right. The paddle-height hypotheses say the paddles are
non-degenerate (the game paddles have height 80). -/
theorem score_transition_spec (s : GameState) (rAI theta : ℝ) (flip : Bool)
    (hph : s.phase = Phase.playing)
    (htheta : theta ∈ Set.Icc (-(π/6)) (π/6))
    (hhl : 2 ≤ s.left_paddle.height) (hhr : 2 ≤ s.right_paddle.height)
    (hsl : s.score_left < max_score) (hsr : s.score_right = 9)
    (hx : s.ball.x = -1) (hvx : s.ball.vx < 1) :
    ∃ s', gameFrame s rAI theta flip = some s' ∧ s'.score_right = 10 ∧
      s'.phase = Phase.game_over ∧ s'.winner = Winner.right := by
  have hx1 : s.ball.step_move.x < 0 := by
    show s.ball.x + s.ball.vx < 0
    rw [hx]
    linarith
  have hupd : s.ball.update theta flip =
      { ball := s.ball.step_move.reset_ball theta flip,
        wallHit := wallCond s.ball, scored := some Side.right } := by
    unfold Ball.update
    rw [if_pos hx1]
  have hvxR : (s.ball.step_move.reset_ball theta flip).vx ≠ 0 :=
    reset_ball_vx_ne _ theta flip htheta
  obtain ⟨r1, b2, hc1⟩ := collision_total _ (leftPaddleMove s) hvxR
    (by rw [leftPaddleMove_height]; exact hhl)
  have hb2 := collision_post_vx_ne _ _ _ _ hc1 hvxR
    (by rw [reset_ball_speed]; norm_num)
  obtain ⟨r2, b3, hc2⟩ := collision_total b2 (rightPaddleMove s rAI) hb2.1
    (by rw [rightPaddleMove_height]; exact hhr)
  have hgf : gameFrame s rAI theta flip =
      some (winCheck (framePost s rAI b3 (some Side.right))) := by
    unfold gameFrame
    rw [if_pos hph, hupd]
    dsimp only
    rw [hc1]
    dsimp only
    rw [hc2]
  have hsr10 : (framePost s rAI b3 (some Side.right)).score_right = 10 := by
    show scoreAfter s.score_right (some Side.right) Side.right = 10
    unfold scoreAfter
    rw [if_pos rfl, hsr]
  have hsl' : (framePost s rAI b3 (some Side.right)).score_left = s.score_left := by
    show scoreAfter s.score_left (some Side.right) Side.left = s.score_left
    unfold scoreAfter
    rw [if_neg (by simp)]
  have hwc : winCheck (framePost s rAI b3 (some Side.right)) =
      { (framePost s rAI b3 (some Side.right)) with
          winner := Winner.right, phase := Phase.game_over } := by
    have hnl : ¬ max_score ≤ (framePost s rAI b3 (some Side.right)).score_left := by
      rw [hsl']
      exact not_le.mpr hsl
    have hpr : max_score ≤ (framePost s rAI b3 (some Side.right)).score_right := by
      rw [hsr10]
      decide
    unfold winCheck
    rw [if_neg hnl, if_pos hpr]
  refine ⟨winCheck (framePost s rAI b3 (some Side.right)), hgf, ?_, ?_, ?_⟩
  · rw [hwc]
    exact hsr10
  · rw [hwc]
  · rw [hwc]

/-- Concrete playing state with the ball at `x = -1`, right score 9, and
the ball still moving left; used by the C5 witness. -/
def gsNine : GameState :=
  { score_left := 0, score_right := 9, phase := Phase.playing,
    winner := Winner.none, mode := Mode.none,
    left_paddle := { x := 30, y := 260 }, right_paddle := { x := 955, y := 260 },
    ball := { x := -1, y := 300, vx := -6, vy := 0, speed := 6 },
    left_up := false, left_down := false, right_up := false, right_down := false }

/-- Witness for the amended C5 at a concrete state. -/
theorem score_transition_spec_witness :
    ∃ s', gameFrame gsNine 0 0 false = some s' ∧ s'.score_right = 10 ∧
      s'.phase = Phase.game_over ∧ s'.winner = Winner.right := by
  apply score_transition_spec gsNine 0 0 false
  · rfl
  · exact zero_in_support
  · show (2:ℤ) ≤ 80
    norm_num
  · show (2:ℤ) ≤ 80
    norm_num
  · show (0:ℕ) < 10
    norm_num
  · rfl
  · rfl
  · show (-6:ℝ) < 1
    norm_num

/-- Concrete state satisfying the hypotheses of C5 as stated (ball at
`x = -1`, `max_score` 10, right score 9, phase playing) on which the
claimed conclusion fails: the ball moves right (`vx = 6`). -/
def gsCex : GameState :=
  { score_left := 0, score_right := 9, phase := Phase.playing,
    winner := Winner.none, mode := Mode.none,
    left_paddle := { x := 30, y := 260 }, right_paddle := { x := 955, y := 260 },
    ball := { x := -1, y := 300, vx := 6, vy := 0, speed := 6 },
    left_up := false, left_down := false, right_up := false, right_down := false }

lemma gsCex_ball_update : gsCex.ball.update 0 false =
    { ball := gsCex.ball.step_move, wallHit := wallCond gsCex.ball,
      scored := none } := by
  unfold Ball.update
  rw [if_neg ?h1, if_neg ?h2]
  case h1 =>
    show ¬ (gsCex.ball.x + gsCex.ball.vx < 0)
    norm_num [gsCex]
  case h2 =>
    show ¬ ((WIDTH : ℝ) < gsCex.ball.x + gsCex.ball.vx)
    norm_num [gsCex, WIDTH]

lemma gsCex_no_overlap_left : ¬ overlap gsCex.ball.step_move gsCex.left_paddle := by
  intro hcon
  have h2 := hcon.2.1
  norm_num [Ball.step_move, gsCex] at h2

lemma gsCex_no_overlap_right : ¬ overlap gsCex.ball.step_move gsCex.right_paddle := by
  intro hcon
  have h2 := hcon.2.1
  norm_num [Ball.step_move, gsCex] at h2

lemma gsCex_collision_left :
    gsCex.ball.step_move.check_paddle_collision (leftPaddleMove gsCex) =
      some (false, gsCex.ball.step_move) := by
  have hlp : leftPaddleMove gsCex = gsCex.left_paddle := manualMove_false _
  rw [hlp]
  unfold Ball.check_paddle_collision
  rw [if_neg gsCex_no_overlap_left]

lemma gsCex_collision_right :
    gsCex.ball.step_move.check_paddle_collision (rightPaddleMove gsCex 0) =
      some (false, gsCex.ball.step_move) := by
  have hrp : rightPaddleMove gsCex 0 = gsCex.right_paddle :=
    rightPaddleMove_of_mode_none gsCex 0 rfl
  rw [hrp]
  unfold Ball.check_paddle_collision
  rw [if_neg gsCex_no_overlap_right]

lemma gsCex_frame : gameFrame gsCex 0 0 false =
    some (winCheck (framePost gsCex 0 gsCex.ball.step_move none)) := by
  unfold gameFrame
  rw [if_pos (show gsCex.phase = Phase.playing from rfl), gsCex_ball_update]
  dsimp only
  rw [gsCex_collision_left]
  dsimp only
  rw [gsCex_collision_right]

/-- Counterexample to C5 as stated: from a state with the ball exactly at
`x = -1`, `max_score = 10` and right score 9, the frame leaves the right
score at 9 and the phase at `playing`, because `update` integrates the
position before the `x < 0` test and the ball (moving right with `vx = 6`)
re-enters the playfield; no score, no `game_over`, no winner. -/
theorem score_transition_cex :
    gsCex.ball.x = -1 ∧ gsCex.score_right = 9 ∧ gsCex.phase = Phase.playing ∧
    (gameFrame gsCex 0 0 false).map GameState.score_right = some 9 ∧
    (gameFrame gsCex 0 0 false).map GameState.phase = some Phase.playing := by
  have hfpl : (framePost gsCex 0 gsCex.ball.step_move none).score_left = 0 := by
    show scoreAfter gsCex.score_left none Side.left = 0
    unfold scoreAfter
    rw [if_neg (by simp)]
    rfl
  have hfpr : (framePost gsCex 0 gsCex.ball.step_move none).score_right = 9 := by
    show scoreAfter gsCex.score_right none Side.right = 9
    unfold scoreAfter
    rw [if_neg (by simp)]
    rfl
  have hwc : winCheck (framePost gsCex 0 gsCex.ball.step_move none) =
      framePost gsCex 0 gsCex.ball.step_move none := by
    unfold winCheck
    rw [if_neg (by rw [hfpl]; decide), if_neg (by rw [hfpr]; decide)]
  refine ⟨rfl, rfl, rfl, ?_, ?_⟩
  · rw [gsCex_frame, hwc]
    show some ((framePost gsCex 0 gsCex.ball.step_move none).score_right) = some 9
    rw [hfpr]
  · rw [gsCex_frame, hwc]
    rfl

end

end Pong
